import Mathlib

/-
  Verification development for the ROI calculator repository.

  Shallow embedding of:
  - `src/utils/roi_calculator.py` (`ConcreteROICalculator.calculate_roi_with_inputs`),
  - `src/utils/database_storage.py` (`ROIStorage.save_roi_inputs`, `load_roi_inputs`,
    `delete_roi_inputs`),
  - the portfolio aggregation loop of `display_roi_analysis` in `src/app.py`.

  Python floats are modelled as exact rationals (ℚ); `float('inf')` for the
  payback period is modelled with `WithTop ℚ`.  An `Option` field value `none`
  models a key that is absent from the Python dict (or present with value
  `None`, which the calculator's `or`-defaulting treats identically).
  Score fields flow through the program as Python ints (the UI sliders and the
  store's `int(...)` coercions), so they are modelled as `Option ℤ`.
-/

namespace ROI

/-- Python `x or d` on an optional numeric value: `None` and `0` are falsy,
so both are replaced by the default `d`.  Models `inputs.get(k) or d`. -/
def orDefault (x : Option ℚ) (d : ℚ) : ℚ :=
  match x with
  | none => d
  | some v => if v = 0 then d else v

/-- Python `x or d` on an optional integer score (`None` and `0` falsy). -/
def orDefaultZ (x : Option ℤ) (d : ℤ) : ℤ :=
  match x with
  | none => d
  | some v => if v = 0 then d else v

/-- The input dict consumed by `calculate_roi_with_inputs` and
`save_roi_inputs` (`None`-or-absent modelled as `none`). -/
structure Inputs where
  labor_impact_hours : Option ℚ := none
  labor_cost_hourly : Option ℚ := none
  cost_avoidance_annual : Option ℚ := none
  revenue_impact_annual : Option ℚ := none
  risk_mitigation_score : Option ℤ := none
  customer_reach_score : Option ℤ := none
  time_to_value_hours : Option ℚ := none
  implementation_cost_hourly : Option ℚ := none
  confidence_level : Option ℤ := none
deriving DecidableEq

/-- `self.blended_hourly_rate` in `ConcreteROICalculator.__init__`. -/
def blended_hourly_rate : ℚ := 100

/-- `fte_hours_saved = inputs.get('labor_impact_hours') or 0`. -/
def fte_hours_saved (i : Inputs) : ℚ := orDefault i.labor_impact_hours 0

/-- `avg_hourly_rate = inputs.get('labor_cost_hourly') or self.blended_hourly_rate`. -/
def avg_hourly_rate (i : Inputs) : ℚ := orDefault i.labor_cost_hourly blended_hourly_rate

/-- `costs_saved_annual = inputs.get('cost_avoidance_annual') or 0`. -/
def costs_saved_annual (i : Inputs) : ℚ := orDefault i.cost_avoidance_annual 0

/-- `revenue_generated_annual = inputs.get('revenue_impact_annual') or 0`. -/
def revenue_generated_annual (i : Inputs) : ℚ := orDefault i.revenue_impact_annual 0

/-- `time_to_value_hours = inputs.get('time_to_value_hours') or 0`. -/
def time_to_value_hours (i : Inputs) : ℚ := orDefault i.time_to_value_hours 0

/-- `monthly_benefit = (fte_hours_saved * avg_hourly_rate) + (costs_saved_annual / 12)
+ (revenue_generated_annual / 12)`. -/
def monthly_benefit (i : Inputs) : ℚ :=
  fte_hours_saved i * avg_hourly_rate i + costs_saved_annual i / 12
    + revenue_generated_annual i / 12

/-- `implementation_cost = time_to_value_hours * avg_hourly_rate`. -/
def implementation_cost (i : Inputs) : ℚ := time_to_value_hours i * avg_hourly_rate i

/-- `payback_months = implementation_cost / max(monthly_benefit, 0.01)
if monthly_benefit > 0 else float('inf')`. -/
def payback_months (i : Inputs) : WithTop ℚ :=
  if monthly_benefit i > 0 then
    ((implementation_cost i / max (monthly_benefit i) (1/100) : ℚ) : WithTop ℚ)
  else ⊤

/-- `annual_roi = ((12 * monthly_benefit) - implementation_cost)
/ max(implementation_cost, 0.01) * 100 if implementation_cost > 0 else 0`. -/
def annual_roi (i : Inputs) : ℚ :=
  if implementation_cost i > 0 then
    (12 * monthly_benefit i - implementation_cost i) / max (implementation_cost i) (1/100) * 100
  else 0

/-- `confidence = inputs.get('confidence_level') or 0`. -/
def confidence (i : Inputs) : ℤ := orDefaultZ i.confidence_level 0

/-- `risk_score = inputs.get('risk_mitigation_score') or 0`. -/
def risk_score (i : Inputs) : ℤ := orDefaultZ i.risk_mitigation_score 0

/-- `customer_reach = inputs.get('customer_reach_score') or 0`. -/
def customer_reach (i : Inputs) : ℤ := orDefaultZ i.customer_reach_score 0

/-- `strategic_value = (risk_score + customer_reach + confidence) / 3`
(Python true division, so computed in ℚ). -/
def strategic_value (i : Inputs) : ℚ :=
  ((risk_score i + customer_reach i + confidence i : ℤ) : ℚ) / 3

/-- The dict returned by `calculate_roi_with_inputs`. -/
structure Results where
  labor_savings_monthly : ℚ
  cost_avoidance_monthly : ℚ
  revenue_monthly : ℚ
  monthly_benefit : ℚ
  annual_benefit : ℚ
  implementation_cost : ℚ
  payback_period_months : WithTop ℚ
  annual_roi_percentage : ℚ
  confidence_score : ℤ
  risk_mitigation_score : ℤ
  customer_reach_score : ℤ
  strategic_value : ℚ
  time_to_value_hours : ℚ
  fte_hours_saved : ℚ
  costs_saved_annual : ℚ
  revenue_generated_annual : ℚ
deriving DecidableEq

/-- `ConcreteROICalculator.calculate_roi_with_inputs` (roi_calculator.py,
lines 83-131), assembled from the local bindings above. -/
def calculate_roi_with_inputs (i : Inputs) : Results :=
  { labor_savings_monthly := fte_hours_saved i * avg_hourly_rate i
    cost_avoidance_monthly := costs_saved_annual i / 12
    revenue_monthly := revenue_generated_annual i / 12
    monthly_benefit := monthly_benefit i
    annual_benefit := monthly_benefit i * 12
    implementation_cost := implementation_cost i
    payback_period_months := payback_months i
    annual_roi_percentage := annual_roi i
    confidence_score := confidence i
    risk_mitigation_score := risk_score i
    customer_reach_score := customer_reach i
    strategic_value := strategic_value i
    time_to_value_hours := time_to_value_hours i
    fte_hours_saved := fte_hours_saved i
    costs_saved_annual := costs_saved_annual i
    revenue_generated_annual := revenue_generated_annual i }

/-- A row of the `roi_inputs` table.  Modelled from the spec: the table schema
itself (spec §6, "one table `roi_inputs` with the 12 fields in §3;
`use_case_title` carries a uniqueness constraint") is not part of src/; the
column set and types follow the INSERT statement in
`database_storage.py` and the §3 field table.  `updated_at` is an abstract
logical timestamp. -/
structure Row where
  use_case_title : String
  business_unit : String
  labor_impact_hours : ℚ
  labor_cost_hourly : ℚ
  cost_avoidance_annual : ℚ
  revenue_impact_annual : ℚ
  risk_mitigation_score : ℤ
  customer_reach_score : ℤ
  time_to_value_hours : ℚ
  implementation_cost_hourly : ℚ
  confidence_level : ℤ
  updated_at : ℕ
deriving DecidableEq

/-- Modelled from the spec: the state of the backing store (spec §4.3) —
its connection flag, the live rows of `roi_inputs`, and a logical clock
standing in for `CURRENT_TIMESTAMP` (strictly increasing across upserts). -/
structure Store where
  connected : Bool
  rows : List Row
  clock : ℕ
deriving DecidableEq

/-- Python `business_unit or 'Unknown'` (`None` and `''` are falsy). -/
def strOr (x : Option String) (d : String) : String :=
  match x with
  | none => d
  | some s => if s = "" then d else s

/-- The VALUES tuple of the INSERT in `save_roi_inputs` (database_storage.py,
lines 63-75): `inputs.get(key, default)` coerced with `float(...)`/`int(...)`
(identity on the declared rational/integer domains). -/
def mkRow (use_case_title : String) (inputs : Inputs) (business_unit : Option String)
    (t : ℕ) : Row :=
  { use_case_title := use_case_title
    business_unit := strOr business_unit "Unknown"
    labor_impact_hours := inputs.labor_impact_hours.getD 0
    labor_cost_hourly := inputs.labor_cost_hourly.getD 100
    cost_avoidance_annual := inputs.cost_avoidance_annual.getD 0
    revenue_impact_annual := inputs.revenue_impact_annual.getD 0
    risk_mitigation_score := inputs.risk_mitigation_score.getD 3
    customer_reach_score := inputs.customer_reach_score.getD 3
    time_to_value_hours := inputs.time_to_value_hours.getD 0
    implementation_cost_hourly := inputs.implementation_cost_hourly.getD 100
    confidence_level := inputs.confidence_level.getD 3
    updated_at := t }

/-- `INSERT ... ON CONFLICT (use_case_title) DO UPDATE SET ...` on a table
whose `use_case_title` column is unique: replace the conflicting row(s),
otherwise append. -/
def upsert (rows : List Row) (r : Row) : List Row :=
  if rows.any (fun x => x.use_case_title = r.use_case_title) then
    rows.map (fun x => if x.use_case_title = r.use_case_title then r else x)
  else rows ++ [r]

/-- `ROIStorage.save_roi_inputs` (database_storage.py, lines 34-78): returns
the boolean result together with the successor store state. -/
def save_roi_inputs (s : Store) (use_case_title : String) (inputs : Inputs)
    (business_unit : Option String) : Bool × Store :=
  if s.connected then
    (true,
      { s with
        rows := upsert s.rows (mkRow use_case_title inputs business_unit s.clock)
        clock := s.clock + 1 })
  else (false, s)

/-- The dict built by `load_roi_inputs` from a fetched row (database_storage.py,
lines 93-103): only the nine numeric/score columns are returned. -/
structure LoadedInputs where
  labor_impact_hours : ℚ
  labor_cost_hourly : ℚ
  cost_avoidance_annual : ℚ
  revenue_impact_annual : ℚ
  risk_mitigation_score : ℤ
  customer_reach_score : ℤ
  time_to_value_hours : ℚ
  implementation_cost_hourly : ℚ
  confidence_level : ℤ
deriving DecidableEq

/-- `ROIStorage.load_roi_inputs` (database_storage.py, lines 80-106):
`SELECT * FROM roi_inputs WHERE use_case_title = %s`, then the nine-field
dict, or `None` when disconnected or no row matches. -/
def load_roi_inputs (s : Store) (use_case_title : String) : Option LoadedInputs :=
  if s.connected then
    match s.rows.find? (fun x => x.use_case_title = use_case_title) with
    | some r =>
        some
          { labor_impact_hours := r.labor_impact_hours
            labor_cost_hourly := r.labor_cost_hourly
            cost_avoidance_annual := r.cost_avoidance_annual
            revenue_impact_annual := r.revenue_impact_annual
            risk_mitigation_score := r.risk_mitigation_score
            customer_reach_score := r.customer_reach_score
            time_to_value_hours := r.time_to_value_hours
            implementation_cost_hourly := r.implementation_cost_hourly
            confidence_level := r.confidence_level }
    | none => none
  else none

/-- `ROIStorage.delete_roi_inputs` (database_storage.py, lines 139-152):
`DELETE FROM roi_inputs WHERE use_case_title = %s`, returning
`cursor.rowcount > 0`. -/
def delete_roi_inputs (s : Store) (use_case_title : String) : Bool × Store :=
  if s.connected then
    (decide ((s.rows.filter (fun x => !decide (x.use_case_title = use_case_title))).length
        < s.rows.length),
      { s with rows := s.rows.filter (fun x => !decide (x.use_case_title = use_case_title)) })
  else (false, s)

/-- Store states reachable from a freshly initialised (empty) store by the
mutating operations. -/
inductive Reachable : Store → Prop
  | init (c : Bool) : Reachable { connected := c, rows := [], clock := 0 }
  | save {s : Store} (t : String) (i : Inputs) (bu : Option String) :
      Reachable s → Reachable (save_roi_inputs s t i bu).2
  | del {s : Store} (t : String) :
      Reachable s → Reachable (delete_roi_inputs s t).2

/-- Number of live rows carrying a given title. -/
def countTitle (rows : List Row) (t : String) : ℕ :=
  (rows.filter (fun x => decide (x.use_case_title = t))).length

/-- `has_data = any(inputs.get(field) not in [None, 0, ''] for field in
['labor_impact_hours', 'cost_avoidance_annual', 'revenue_impact_annual'])`
(app.py, lines 674-676).  A rational field is "meaningful" when present and
non-zero. -/
def present_nonzero (x : Option ℚ) : Bool :=
  match x with
  | none => false
  | some v => decide (v ≠ 0)

/-- The "has data" predicate of the portfolio aggregation loop. -/
def has_data (i : Inputs) : Bool :=
  present_nonzero i.labor_impact_hours || present_nonzero i.cost_avoidance_annual
    || present_nonzero i.revenue_impact_annual

/-- A per-case summary entry of the consolidated summary (app.py, lines
700-708), abstracting the currency/percent string formatting to the numbers
being formatted. -/
structure SummaryRow where
  use_case : String
  monthly_benefit : ℚ
  annual_benefit : ℚ
  implementation_cost : ℚ
  net_annual_benefit : ℚ
  annual_roi_percentage : ℚ
  strategic_value : ℚ
deriving DecidableEq

/-- One iteration of the aggregation loop of `display_roi_analysis` (app.py,
lines 673-708): records failing `has_data` are skipped entirely; qualifying
records add their annual benefit and implementation cost to the running
totals and append a summary row.  (The loop's `if results:` test is always
true — `calculate_roi_with_inputs` returns a non-empty dict — and
`has_implementation_data` is computed but unused on this path.) -/
def summaryStep (acc : ℚ × ℚ × List SummaryRow) (entry : String × Inputs) :
    ℚ × ℚ × List SummaryRow :=
  if has_data entry.2 then
    let results := calculate_roi_with_inputs entry.2
    (acc.1 + results.annual_benefit,
      acc.2.1 + results.implementation_cost,
      acc.2.2 ++
        [{ use_case := entry.1
           monthly_benefit := results.monthly_benefit
           annual_benefit := results.annual_benefit
           implementation_cost := results.implementation_cost
           net_annual_benefit := results.annual_benefit - results.implementation_cost
           annual_roi_percentage := results.annual_roi_percentage
           strategic_value := results.strategic_value }])
  else acc

/-- The aggregation pass over `all_roi_data.items()`: total annual benefits,
total implementation costs, and the per-case summary rows. -/
def roiSummary (data : List (String × Inputs)) : ℚ × ℚ × List SummaryRow :=
  data.foldl summaryStep (0, 0, [])

/-- Modelled from the spec: the §4.1 formula for `monthly_benefit` under the
§4.1 contract sentence "treats any missing/null numeric field as 0". -/
def spec_monthly_benefit_zeroed (i : Inputs) : ℚ :=
  i.labor_impact_hours.getD 0 * i.labor_cost_hourly.getD 0
    + i.cost_avoidance_annual.getD 0 / 12 + i.revenue_impact_annual.getD 0 / 12

/-- Modelled from the spec: the §4.1 formula for `implementation_cost` under
the missing-as-0 contract sentence. -/
def spec_implementation_cost_zeroed (i : Inputs) : ℚ :=
  i.time_to_value_hours.getD 0 * i.labor_cost_hourly.getD 0

/-- Modelled from the spec: the §4.1 formula for `strategic_value` with every
missing score treated as 0. -/
def spec_strategic_value_zeroed (i : Inputs) : ℚ :=
  ((i.risk_mitigation_score.getD 0 + i.customer_reach_score.getD 0
      + i.confidence_level.getD 0 : ℤ) : ℚ) / 3

/-- The labor hourly rate as the calculator actually defaults it: missing,
null, or `0` becomes the blended rate `100`; any other value passes through. -/
def rate_defaulted (i : Inputs) : ℚ :=
  match i.labor_cost_hourly with
  | none => blended_hourly_rate
  | some v => if v = 0 then blended_hourly_rate else v

/-- Values a stored/written field can take, for field-by-field record
comparison. -/
inductive FieldVal
  | str (s : String)
  | rat (q : ℚ)
  | int (n : ℤ)
deriving DecidableEq

/-- The 11 non-timestamp fields of an Input Record (spec §3). -/
def elevenFields : List String :=
  ["use_case_title", "business_unit", "labor_impact_hours", "labor_cost_hourly",
    "cost_avoidance_annual", "revenue_impact_annual", "risk_mitigation_score",
    "customer_reach_score", "time_to_value_hours", "implementation_cost_hourly",
    "confidence_level"]

/-- The nine numeric/score fields. -/
def nineFields : List String :=
  ["labor_impact_hours", "labor_cost_hourly", "cost_avoidance_annual",
    "revenue_impact_annual", "risk_mitigation_score", "customer_reach_score",
    "time_to_value_hours", "implementation_cost_hourly", "confidence_level"]

/-- The keys actually present in the dict `load_roi_inputs` returns. -/
def LoadedInputs.lookup (r : LoadedInputs) (k : String) : Option FieldVal :=
  if k = "labor_impact_hours" then some (.rat r.labor_impact_hours)
  else if k = "labor_cost_hourly" then some (.rat r.labor_cost_hourly)
  else if k = "cost_avoidance_annual" then some (.rat r.cost_avoidance_annual)
  else if k = "revenue_impact_annual" then some (.rat r.revenue_impact_annual)
  else if k = "risk_mitigation_score" then some (.int r.risk_mitigation_score)
  else if k = "customer_reach_score" then some (.int r.customer_reach_score)
  else if k = "time_to_value_hours" then some (.rat r.time_to_value_hours)
  else if k = "implementation_cost_hourly" then some (.rat r.implementation_cost_hourly)
  else if k = "confidence_level" then some (.int r.confidence_level)
  else none

/-- The field values handed to `save_roi_inputs` — "what was written". -/
def writtenLookup (use_case_title : String) (business_unit : Option String)
    (i : Inputs) (k : String) : Option FieldVal :=
  if k = "use_case_title" then some (.str use_case_title)
  else if k = "business_unit" then business_unit.map .str
  else if k = "labor_impact_hours" then i.labor_impact_hours.map .rat
  else if k = "labor_cost_hourly" then i.labor_cost_hourly.map .rat
  else if k = "cost_avoidance_annual" then i.cost_avoidance_annual.map .rat
  else if k = "revenue_impact_annual" then i.revenue_impact_annual.map .rat
  else if k = "risk_mitigation_score" then i.risk_mitigation_score.map .int
  else if k = "customer_reach_score" then i.customer_reach_score.map .int
  else if k = "time_to_value_hours" then i.time_to_value_hours.map .rat
  else if k = "implementation_cost_hourly" then i.implementation_cost_hourly.map .rat
  else if k = "confidence_level" then i.confidence_level.map .int
  else none

/-- An Input Record with every numeric/score field populated. -/
def Inputs.Full (i : Inputs) : Prop :=
  i.labor_impact_hours.isSome = true ∧ i.labor_cost_hourly.isSome = true ∧
    i.cost_avoidance_annual.isSome = true ∧ i.revenue_impact_annual.isSome = true ∧
    i.risk_mitigation_score.isSome = true ∧ i.customer_reach_score.isSome = true ∧
    i.time_to_value_hours.isSome = true ∧ i.implementation_cost_hourly.isSome = true ∧
    i.confidence_level.isSome = true

/-- Field present implies non-negative value (the spec §3 domain of the
numeric fields; `none` models a missing field). -/
def OptNonneg : Option ℚ → Prop
  | none => True
  | some v => 0 ≤ v

/-- All five numeric inputs read by the calculator lie in the spec §3 domain
(non-negative or missing). -/
def ValidNumeric (i : Inputs) : Prop :=
  OptNonneg i.labor_impact_hours ∧ OptNonneg i.labor_cost_hourly ∧
    OptNonneg i.cost_avoidance_annual ∧ OptNonneg i.revenue_impact_annual ∧
    OptNonneg i.time_to_value_hours

/-- The store invariant: titles are unique and every live row's timestamp is
in the past of the logical clock. -/
def Inv (s : Store) : Prop :=
  (∀ t, countTitle s.rows t ≤ 1) ∧ ∀ r ∈ s.rows, r.updated_at < s.clock

/-- An input record with a tiny (but positive) monthly benefit: 0.06 $/year of
cost avoidance and one hour of implementation time. -/
def i_small : Inputs :=
  { cost_avoidance_annual := some (6/100), time_to_value_hours := some 1 }

/-- An input record giving only the labor hours. -/
def i_labor : Inputs := { labor_impact_hours := some 2 }

/-- The fully-populated input record of the spec §8.1 worked example. -/
def i_full : Inputs :=
  { labor_impact_hours := some 10
    labor_cost_hourly := some 50
    cost_avoidance_annual := some 1200
    revenue_impact_annual := some 2400
    risk_mitigation_score := some 4
    customer_reach_score := some 5
    time_to_value_hours := some 20
    implementation_cost_hourly := some 100
    confidence_level := some 3 }

/-- The record with every field missing. -/
def emptyInputs : Inputs := {}

/-- A record with cost avoidance only (zero implementation effort). -/
def i_ca : Inputs := { cost_avoidance_annual := some 1200 }

/-- A record whose three "has data" fields are all 0 or missing while its
implementation effort is non-zero. -/
def i_nodata : Inputs :=
  { labor_impact_hours := some 0, revenue_impact_annual := some 0
    time_to_value_hours := some 40 }

/-- A freshly connected, empty store. -/
def store₀ : Store := { connected := true, rows := [], clock := 0 }

/-- A connected store holding one row, titled "A". -/
def storeA : Store :=
  { connected := true, rows := [mkRow "A" emptyInputs none 0], clock := 1 }

lemma orDefault_zero (x : Option ℚ) : orDefault x 0 = x.getD 0 := by
  cases x with
  | none => rfl
  | some v =>
      by_cases h : v = 0 <;> simp [orDefault, h]

lemma orDefaultZ_zero (x : Option ℤ) : orDefaultZ x 0 = x.getD 0 := by
  cases x with
  | none => rfl
  | some v =>
      by_cases h : v = 0 <;> simp [orDefaultZ, h]

lemma rate_defaulted_eq (i : Inputs) : rate_defaulted i = avg_hourly_rate i := by
  cases h : i.labor_cost_hourly <;> simp [rate_defaulted, avg_hourly_rate, orDefault, h]

lemma orDefault_nonneg {x : Option ℚ} {d : ℚ} (hx : OptNonneg x) (hd : 0 ≤ d) :
    0 ≤ orDefault x d := by
  cases x with
  | none => exact hd
  | some v =>
      by_cases h : v = 0
      · simpa [orDefault, h] using hd
      · simpa [OptNonneg, orDefault, h] using hx

lemma avg_hourly_rate_nonneg {i : Inputs} (hv : ValidNumeric i) : 0 ≤ avg_hourly_rate i :=
  orDefault_nonneg hv.2.1 (by norm_num [blended_hourly_rate])

lemma monthly_benefit_nonneg {i : Inputs} (hv : ValidNumeric i) : 0 ≤ monthly_benefit i := by
  obtain ⟨h1, h2, h3, h4, h5⟩ := hv
  have hf : 0 ≤ fte_hours_saved i := orDefault_nonneg h1 le_rfl
  have hr : 0 ≤ avg_hourly_rate i := avg_hourly_rate_nonneg ⟨h1, h2, h3, h4, h5⟩
  have hc : 0 ≤ costs_saved_annual i := orDefault_nonneg h3 le_rfl
  have hg : 0 ≤ revenue_generated_annual i := orDefault_nonneg h4 le_rfl
  have := mul_nonneg hf hr
  unfold monthly_benefit
  positivity

lemma implementation_cost_nonneg {i : Inputs} (hv : ValidNumeric i) :
    0 ≤ implementation_cost i :=
  mul_nonneg (orDefault_nonneg hv.2.2.2.2 le_rfl) (avg_hourly_rate_nonneg hv)

lemma find?_map_replace (rows : List Row) (r : Row)
    (hany : rows.any (fun x => x.use_case_title = r.use_case_title) = true) :
    ((rows.map (fun x => if x.use_case_title = r.use_case_title then r else x)).find?
      (fun x => x.use_case_title = r.use_case_title)) = some r := by
  induction rows with
  | nil => simp at hany
  | cons x xs ih =>
      by_cases hx : x.use_case_title = r.use_case_title
      · simp [List.find?, hx]
      · have hxs : xs.any (fun x => x.use_case_title = r.use_case_title) = true := by
          simpa [List.any_cons, hx] using hany
        simpa [List.find?, hx] using ih hxs

lemma find?_upsert (rows : List Row) (r : Row) :
    ((upsert rows r).find? (fun x => x.use_case_title = r.use_case_title)) = some r := by
  unfold upsert
  by_cases hany : rows.any (fun x => x.use_case_title = r.use_case_title) = true
  · simpa [hany] using find?_map_replace rows r hany
  · have hnone : rows.find? (fun x => x.use_case_title = r.use_case_title) = none := by
      rw [List.find?_eq_none]
      intro x hx hmem
      exact hany (List.any_eq_true.mpr ⟨x, hx, hmem⟩)
    simp [hany, List.find?_append, hnone, List.find?]

lemma countTitle_append (l₁ l₂ : List Row) (t : String) :
    countTitle (l₁ ++ l₂) t = countTitle l₁ t + countTitle l₂ t := by
  simp [countTitle, List.filter_append]

lemma countTitle_eq_zero {rows : List Row} {t : String}
    (h : rows.any (fun x => x.use_case_title = t) = false) : countTitle rows t = 0 := by
  simp only [countTitle, List.length_eq_zero, List.filter_eq_nil_iff]
  intro x hx
  simp only [List.any_eq_false] at h
  simpa using h x hx

lemma countTitle_map_replace (rows : List Row) (r : Row) (t : String) :
    countTitle (rows.map (fun x => if x.use_case_title = r.use_case_title then r else x)) t
      = if t = r.use_case_title then countTitle rows r.use_case_title else countTitle rows t := by
  induction rows with
  | nil => simp [countTitle]
  | cons x xs ih =>
      by_cases hx : x.use_case_title = r.use_case_title
      · by_cases ht : t = r.use_case_title
        · simp [countTitle, List.filter, hx, ht, List.length_cons] at ih ⊢
          omega
        · have hxt : ¬ x.use_case_title = t := by
            rw [hx]; exact fun h => ht h.symm
          have hrt : ¬ r.use_case_title = t := fun h => ht h.symm
          simp [countTitle, List.filter, hx, hrt, hxt] at ih ⊢
          simpa [ht] using ih
      · by_cases hxt : x.use_case_title = t
        · by_cases ht : t = r.use_case_title
          · exact absurd (hxt.trans ht) hx
          · simp [countTitle, List.filter, hx, hxt, ht] at ih ⊢
            simpa [ht] using ih
        · simp [countTitle, List.filter, hx, hxt] at ih ⊢
          exact ih

lemma countTitle_upsert_le (rows : List Row) (r : Row) (t : String)
    (hu : ∀ t', countTitle rows t' ≤ 1) : countTitle (upsert rows r) t ≤ 1 := by
  unfold upsert
  by_cases hany : rows.any (fun x => x.use_case_title = r.use_case_title) = true
  · rw [if_pos hany, countTitle_map_replace]
    by_cases ht : t = r.use_case_title <;> simp [ht] <;> exact hu _
  · rw [if_neg hany, countTitle_append]
    have h0 : countTitle rows r.use_case_title = 0 :=
      countTitle_eq_zero (by simpa using hany)
    have hone : countTitle [r] r.use_case_title ≤ 1 := by
      simp [countTitle, List.filter_cons]
    by_cases ht : t = r.use_case_title
    · subst ht
      omega
    · have h1 : countTitle [r] t = 0 := by
        have hne : ¬ (r.use_case_title = t) := fun h => ht h.symm
        simp [countTitle, List.filter_cons, hne]
      have h2 := hu t
      omega

lemma filter_map_replace (rows : List Row) (r : Row)
    (hu : countTitle rows r.use_case_title ≤ 1)
    (hany : rows.any (fun x => x.use_case_title = r.use_case_title) = true) :
    ((rows.map (fun x => if x.use_case_title = r.use_case_title then r else x)).filter
      (fun x => decide (x.use_case_title = r.use_case_title))) = [r] := by
  induction rows with
  | nil => simp at hany
  | cons x xs ih =>
      by_cases hx : x.use_case_title = r.use_case_title
      · have hxs0 : countTitle xs r.use_case_title = 0 := by
          have hc : countTitle (x :: xs) r.use_case_title
              = countTitle xs r.use_case_title + 1 := by
            simp [countTitle, List.filter_cons, hx]
          omega
        have htail :
            ((xs.map (fun x => if x.use_case_title = r.use_case_title then r else x)).filter
              (fun x => decide (x.use_case_title = r.use_case_title))) = [] := by
          rw [List.filter_eq_nil_iff]
          intro z hz
          obtain ⟨y, hy, rfl⟩ := List.mem_map.mp hz
          have hyne : ¬ (y.use_case_title = r.use_case_title) := by
            intro hcontra
            have hymem : y ∈ xs.filter (fun x => decide (x.use_case_title = r.use_case_title)) :=
              List.mem_filter.mpr ⟨hy, by simpa using hcontra⟩
            have hpos : 0 < countTitle xs r.use_case_title :=
              List.length_pos.mpr (List.ne_nil_of_mem hymem)
            omega
          simp [hyne]
        simp [List.filter_cons, hx, htail]
      · have hany' : xs.any (fun x => x.use_case_title = r.use_case_title) = true := by
          simpa [List.any_cons, hx] using hany
        have hu' : countTitle xs r.use_case_title ≤ 1 := by
          have hc : countTitle (x :: xs) r.use_case_title = countTitle xs r.use_case_title := by
            simp [countTitle, List.filter_cons, hx]
          omega
        simpa [List.filter_cons, hx] using ih hu' hany'

lemma filter_upsert (rows : List Row) (r : Row)
    (hu : countTitle rows r.use_case_title ≤ 1) :
    ((upsert rows r).filter (fun x => decide (x.use_case_title = r.use_case_title))) = [r] := by
  unfold upsert
  by_cases hany : rows.any (fun x => x.use_case_title = r.use_case_title) = true
  · simpa [hany] using filter_map_replace rows r hu hany
  · have h0 : countTitle rows r.use_case_title = 0 :=
      countTitle_eq_zero (by simpa using hany)
    have hnil : rows.filter (fun x => decide (x.use_case_title = r.use_case_title)) = [] := by
      have := h0
      simpa [countTitle, List.length_eq_zero] using this
    simp [hany, List.filter_append, hnil, List.filter_cons]

lemma mem_upsert {rows : List Row} {r x : Row} (hx : x ∈ upsert rows r) :
    x = r ∨ x ∈ rows := by
  unfold upsert at hx
  by_cases hany : rows.any (fun x => x.use_case_title = r.use_case_title) = true
  · rw [if_pos hany] at hx
    obtain ⟨y, hy, hxy⟩ := List.mem_map.mp hx
    by_cases h : y.use_case_title = r.use_case_title
    · left; simp [h] at hxy; exact hxy.symm
    · right; simp [h] at hxy; exact hxy ▸ hy
  · rw [if_neg hany] at hx
    rcases List.mem_append.mp hx with h | h
    · right; exact h
    · left; simpa using h

lemma countTitle_filter_le (rows : List Row) (q : Row → Bool) (t : String) :
    countTitle (rows.filter q) t ≤ countTitle rows t :=
  List.Sublist.length_le ((List.filter_sublist rows).filter _)

lemma reachable_inv {s : Store} (h : Reachable s) : Inv s := by
  induction h with
  | init c =>
      refine ⟨fun t => ?_, fun r hr => ?_⟩
      · simp [countTitle]
      · simp at hr
  | @save s t i bu hs ih =>
      by_cases hc : s.connected = true
      · refine ⟨fun t' => ?_, fun r hr => ?_⟩
        · simp only [save_roi_inputs, hc, if_true]
          exact countTitle_upsert_le _ _ _ ih.1
        · simp only [save_roi_inputs, hc, if_true] at hr ⊢
          rcases mem_upsert hr with rfl | hmem
          · simp [mkRow]
          · have := ih.2 r hmem
            omega
      · simpa [save_roi_inputs, hc] using ih
  | @del s t ih_r ih =>
      by_cases hc : s.connected = true
      · refine ⟨fun t' => ?_, fun r hr => ?_⟩
        · simp only [delete_roi_inputs, hc, if_true]
          exact le_trans (countTitle_filter_le _ _ _) (ih.1 t')
        · simp only [delete_roi_inputs, hc, if_true] at hr ⊢
          exact ih.2 r (List.mem_filter.mp hr).1
      · simpa [delete_roi_inputs, hc] using ih

lemma length_filter_lt_iff (rows : List Row) (p : Row → Bool) :
    ((rows.filter p).length < rows.length) ↔ ∃ x ∈ rows, p x = false := by
  induction rows with
  | nil => simp
  | cons x xs ih =>
      by_cases hp : p x = true
      · simp [List.filter_cons, hp, Nat.succ_lt_succ_iff, ih]
      · have hfalse : p x = false := by simpa using hp
        have hle := List.length_filter_le p xs
        simp only [List.filter_cons, hfalse, Bool.false_eq_true, if_false, List.length_cons]
        constructor
        · intro _
          exact ⟨x, List.mem_cons_self x xs, hfalse⟩
        · intro _
          omega

lemma mb_small : monthly_benefit i_small = 1/200 := by
  norm_num [monthly_benefit, fte_hours_saved, avg_hourly_rate, costs_saved_annual,
    revenue_generated_annual, orDefault, i_small, blended_hourly_rate]

lemma ic_small : implementation_cost i_small = 100 := by
  norm_num [implementation_cost, time_to_value_hours, avg_hourly_rate, orDefault,
    i_small, blended_hourly_rate]

lemma mb_full : monthly_benefit i_full = 800 := by
  norm_num [monthly_benefit, fte_hours_saved, avg_hourly_rate, costs_saved_annual,
    revenue_generated_annual, orDefault, i_full, blended_hourly_rate]

lemma ic_full : implementation_cost i_full = 1000 := by
  norm_num [implementation_cost, time_to_value_hours, avg_hourly_rate, orDefault,
    i_full, blended_hourly_rate]

/-- Spec §8.1 worked example, as a sanity check of the embedding. -/
example :
    (calculate_roi_with_inputs
      { labor_impact_hours := some 10
        labor_cost_hourly := some 50
        cost_avoidance_annual := some 1200
        revenue_impact_annual := some 2400
        risk_mitigation_score := some 4
        customer_reach_score := some 5
        time_to_value_hours := some 20
        confidence_level := some 3 }).monthly_benefit = 800 := by
  norm_num [calculate_roi_with_inputs, monthly_benefit, fte_hours_saved, avg_hourly_rate,
    costs_saved_annual, revenue_generated_annual, orDefault]

lemma payback_eq (i : Inputs) :
    (calculate_roi_with_inputs i).payback_period_months = payback_months i := rfl

lemma roi_eq (i : Inputs) :
    (calculate_roi_with_inputs i).annual_roi_percentage = annual_roi i := rfl

lemma mb_eq (i : Inputs) :
    (calculate_roi_with_inputs i).monthly_benefit = monthly_benefit i := rfl

lemma ic_eq (i : Inputs) :
    (calculate_roi_with_inputs i).implementation_cost = implementation_cost i := rfl

/-- C1 counterexample: on the record `i_small` the monthly benefit is the
positive value 1/200, yet the returned payback period is 10000 months — the
code divides by `max(monthly_benefit, 0.01) = 0.01` — while
`implementation_cost / monthly_benefit` is 20000 months.  The epsilon
substituted into the positive denominator changes the result's value. -/
theorem c1_exact_division_counterexample :
    (calculate_roi_with_inputs i_small).monthly_benefit > 0 ∧
      (calculate_roi_with_inputs i_small).payback_period_months
        ≠ (((calculate_roi_with_inputs i_small).implementation_cost
            / (calculate_roi_with_inputs i_small).monthly_benefit : ℚ) : WithTop ℚ) := by
  have hpb : payback_months i_small = ((10000 : ℚ) : WithTop ℚ) := by
    rw [payback_months, if_pos (by rw [mb_small]; norm_num)]
    rw [mb_small, ic_small,
      show max ((1:ℚ)/200) (1/100) = 1/100 from max_eq_right (by norm_num)]
    norm_num
  constructor
  · rw [mb_eq, mb_small]; norm_num
  · rw [payback_eq, mb_eq, ic_eq, hpb, mb_small, ic_small]
    rw [ne_eq, WithTop.coe_eq_coe]
    norm_num

/-- C1 (amended): the returned payback period equals
`implementation_cost / monthly_benefit` exactly whenever
`monthly_benefit ≥ 0.01`, and the returned annual ROI equals
`((12 * monthly_benefit) - implementation_cost) / implementation_cost * 100`
exactly whenever `implementation_cost ≥ 0.01`; for positive denominators
below 0.01 the code divides by 0.01 instead. -/
theorem c1_exact_division_amended (i : Inputs) :
    (1/100 ≤ (calculate_roi_with_inputs i).monthly_benefit →
      (calculate_roi_with_inputs i).payback_period_months
        = (((calculate_roi_with_inputs i).implementation_cost
            / (calculate_roi_with_inputs i).monthly_benefit : ℚ) : WithTop ℚ)) ∧
    (1/100 ≤ (calculate_roi_with_inputs i).implementation_cost →
      (calculate_roi_with_inputs i).annual_roi_percentage
        = (12 * (calculate_roi_with_inputs i).monthly_benefit
            - (calculate_roi_with_inputs i).implementation_cost)
          / (calculate_roi_with_inputs i).implementation_cost * 100) := by
  rw [payback_eq, roi_eq, mb_eq, ic_eq]
  constructor
  · intro h
    have hpos : monthly_benefit i > 0 := lt_of_lt_of_le (by norm_num) h
    rw [payback_months, if_pos hpos, max_eq_left h]
  · intro h
    have hpos : implementation_cost i > 0 := lt_of_lt_of_le (by norm_num) h
    rw [annual_roi, if_pos hpos, max_eq_left h]

/-- C1 witness: the amended statement applied to the spec §8.1 record, whose
monthly benefit 800 and implementation cost 1000 are both at least 0.01. -/
theorem c1_exact_division_amended_witness :
    (calculate_roi_with_inputs i_full).payback_period_months
        = (((calculate_roi_with_inputs i_full).implementation_cost
            / (calculate_roi_with_inputs i_full).monthly_benefit : ℚ) : WithTop ℚ) ∧
      (calculate_roi_with_inputs i_full).annual_roi_percentage
        = (12 * (calculate_roi_with_inputs i_full).monthly_benefit
            - (calculate_roi_with_inputs i_full).implementation_cost)
          / (calculate_roi_with_inputs i_full).implementation_cost * 100 :=
  ⟨(c1_exact_division_amended i_full).1 (by rw [mb_eq, mb_full]; norm_num),
    (c1_exact_division_amended i_full).2 (by rw [ic_eq, ic_full]; norm_num)⟩

/-- C2 counterexample: on a record supplying only `labor_impact_hours = 2`,
the code returns a monthly benefit of 200 — the missing `labor_cost_hourly`
is defaulted to the blended rate 100 — whereas treating every missing numeric
field as 0 (the spec §4.1 formula with zeros) yields 0. -/
theorem c2_missing_as_zero_counterexample :
    (calculate_roi_with_inputs i_labor).monthly_benefit = 200 ∧
      spec_monthly_benefit_zeroed i_labor = 0 := by
  constructor
  · rw [mb_eq]
    norm_num [monthly_benefit, fte_hours_saved, avg_hourly_rate, costs_saved_annual,
      revenue_generated_annual, orDefault, i_labor, blended_hourly_rate]
  · norm_num [spec_monthly_benefit_zeroed, i_labor]

/-- C2 (amended): `calculate_roi_with_inputs` is total, and it computes the
result record treating every missing or null numeric field as 0 and every
missing score as 0 — with the single exception of `labor_cost_hourly`, which
is replaced by the blended rate 100 whenever it is missing, null, or 0. -/
theorem c2_missing_as_zero_amended (i : Inputs) :
    (calculate_roi_with_inputs i).monthly_benefit
        = i.labor_impact_hours.getD 0 * rate_defaulted i
          + i.cost_avoidance_annual.getD 0 / 12 + i.revenue_impact_annual.getD 0 / 12 ∧
      (calculate_roi_with_inputs i).labor_savings_monthly
        = i.labor_impact_hours.getD 0 * rate_defaulted i ∧
      (calculate_roi_with_inputs i).cost_avoidance_monthly
        = i.cost_avoidance_annual.getD 0 / 12 ∧
      (calculate_roi_with_inputs i).revenue_monthly
        = i.revenue_impact_annual.getD 0 / 12 ∧
      (calculate_roi_with_inputs i).annual_benefit
        = (i.labor_impact_hours.getD 0 * rate_defaulted i
            + i.cost_avoidance_annual.getD 0 / 12
            + i.revenue_impact_annual.getD 0 / 12) * 12 ∧
      (calculate_roi_with_inputs i).implementation_cost
        = i.time_to_value_hours.getD 0 * rate_defaulted i ∧
      (calculate_roi_with_inputs i).strategic_value = spec_strategic_value_zeroed i := by
  simp [calculate_roi_with_inputs, monthly_benefit, implementation_cost, fte_hours_saved,
    costs_saved_annual, revenue_generated_annual, time_to_value_hours, strategic_value,
    risk_score, customer_reach, confidence, orDefault_zero, orDefaultZ_zero,
    rate_defaulted_eq, spec_strategic_value_zeroed]

/-- C3 counterexample: after saving the fully-populated record `i_full` under
title "Case A" on a connected empty store, `load_roi_inputs` returns a record
carrying only the nine numeric/score fields: lookup of `use_case_title` (one
of the 11 non-timestamp fields) yields nothing, while the written value was
"Case A" — so the loaded record is not equal to what was written in all 11
non-timestamp fields. -/
theorem c3_round_trip_counterexample :
    load_roi_inputs (save_roi_inputs store₀ "Case A" i_full (some "Ops")).2 "Case A"
        = some { labor_impact_hours := 10, labor_cost_hourly := 50
                 cost_avoidance_annual := 1200, revenue_impact_annual := 2400
                 risk_mitigation_score := 4, customer_reach_score := 5
                 time_to_value_hours := 20, implementation_cost_hourly := 100
                 confidence_level := 3 } ∧
      LoadedInputs.lookup
          { labor_impact_hours := 10, labor_cost_hourly := 50
            cost_avoidance_annual := 1200, revenue_impact_annual := 2400
            risk_mitigation_score := 4, customer_reach_score := 5
            time_to_value_hours := 20, implementation_cost_hourly := 100
            confidence_level := 3 } "use_case_title" = none ∧
      writtenLookup "Case A" (some "Ops") i_full "use_case_title"
        = some (FieldVal.str "Case A") ∧
      "use_case_title" ∈ elevenFields := by
  refine ⟨rfl, rfl, rfl, ?_⟩
  simp [elevenFields]

/-- C3 (amended): on a connected store, saving any fully-populated Input
Record and loading it back returns a record that agrees with what was written
on the nine numeric/score fields; `use_case_title` and `business_unit` are
written but not part of the record `load_roi_inputs` returns. -/
theorem c3_round_trip_amended (s : Store) (title : String) (i : Inputs)
    (bu : Option String) (hc : s.connected = true) (hf : i.Full) :
    ∃ r, load_roi_inputs (save_roi_inputs s title i bu).2 title = some r ∧
      ∀ k ∈ nineFields, r.lookup k = writtenLookup title bu i k := by
  obtain ⟨h1, h2, h3, h4, h5, h6, h7, h8, h9⟩ := hf
  obtain ⟨a1, ha1⟩ := Option.isSome_iff_exists.mp h1
  obtain ⟨a2, ha2⟩ := Option.isSome_iff_exists.mp h2
  obtain ⟨a3, ha3⟩ := Option.isSome_iff_exists.mp h3
  obtain ⟨a4, ha4⟩ := Option.isSome_iff_exists.mp h4
  obtain ⟨a5, ha5⟩ := Option.isSome_iff_exists.mp h5
  obtain ⟨a6, ha6⟩ := Option.isSome_iff_exists.mp h6
  obtain ⟨a7, ha7⟩ := Option.isSome_iff_exists.mp h7
  obtain ⟨a8, ha8⟩ := Option.isSome_iff_exists.mp h8
  obtain ⟨a9, ha9⟩ := Option.isSome_iff_exists.mp h9
  have hfind := find?_upsert s.rows (mkRow title i bu s.clock)
  rw [show (mkRow title i bu s.clock).use_case_title = title from rfl] at hfind
  refine ⟨{ labor_impact_hours := a1, labor_cost_hourly := a2, cost_avoidance_annual := a3
            revenue_impact_annual := a4, risk_mitigation_score := a5
            customer_reach_score := a6, time_to_value_hours := a7
            implementation_cost_hourly := a8, confidence_level := a9 }, ?_, ?_⟩
  · simp only [save_roi_inputs, hc, if_true, load_roi_inputs, hfind]
    simp [mkRow, ha1, ha2, ha3, ha4, ha5, ha6, ha7, ha8, ha9]
  · intro k hk
    simp only [nineFields, List.mem_cons, List.not_mem_nil, or_false] at hk
    rcases hk with rfl | rfl | rfl | rfl | rfl | rfl | rfl | rfl | rfl <;>
      simp [LoadedInputs.lookup, writtenLookup, mkRow, ha1, ha2, ha3, ha4, ha5, ha6,
        ha7, ha8, ha9]

/-- C3 witness: the amended round-trip instantiated on a connected empty store
with the spec §8.1 record. -/
theorem c3_round_trip_amended_witness :
    ∃ r, load_roi_inputs (save_roi_inputs store₀ "Case A" i_full (some "Ops")).2 "Case A"
        = some r ∧
      ∀ k ∈ nineFields, r.lookup k = writtenLookup "Case A" (some "Ops") i_full k :=
  c3_round_trip_amended store₀ "Case A" i_full (some "Ops") rfl
    (by simp [Inputs.Full, i_full])

lemma sv_eq (i : Inputs) :
    (calculate_roi_with_inputs i).strategic_value = strategic_value i := rfl

lemma mb_ca : monthly_benefit i_ca = 100 := by
  norm_num [monthly_benefit, fte_hours_saved, avg_hourly_rate, costs_saved_annual,
    revenue_generated_annual, orDefault, i_ca, blended_hourly_rate]

lemma ic_ca : implementation_cost i_ca = 0 := by
  norm_num [implementation_cost, time_to_value_hours, avg_hourly_rate, orDefault,
    i_ca, blended_hourly_rate]

/-- C4 counterexample: on the record with every field missing the returned
strategic value is 0, which is not in the interval [1, 5] — each missing
score is treated as 0, not clamped into the 1–5 scale. -/
theorem c4_strategic_value_counterexample :
    (calculate_roi_with_inputs emptyInputs).strategic_value = 0 ∧
      ¬ (1 ≤ (calculate_roi_with_inputs emptyInputs).strategic_value) := by
  have h : strategic_value emptyInputs = 0 := by
    norm_num [strategic_value, risk_score, customer_reach, confidence, orDefaultZ,
      emptyInputs]
  rw [sv_eq, h]
  norm_num

/-- C4 (amended): whenever the three scores are each present with a value in
the declared 1–5 domain, the returned strategic value lies in [1, 5];
with missing scores it can fall below 1 (to 0). -/
theorem c4_strategic_value_amended (i : Inputs)
    (hr : ∃ n, i.risk_mitigation_score = some n ∧ 1 ≤ n ∧ n ≤ 5)
    (hc : ∃ n, i.customer_reach_score = some n ∧ 1 ≤ n ∧ n ≤ 5)
    (hf : ∃ n, i.confidence_level = some n ∧ 1 ≤ n ∧ n ≤ 5) :
    1 ≤ (calculate_roi_with_inputs i).strategic_value ∧
      (calculate_roi_with_inputs i).strategic_value ≤ 5 := by
  obtain ⟨r, hrE, hr1, hr5⟩ := hr
  obtain ⟨c, hcE, hc1, hc5⟩ := hc
  obtain ⟨f, hfE, hf1, hf5⟩ := hf
  rw [sv_eq]
  unfold strategic_value risk_score customer_reach confidence
  rw [hrE, hcE, hfE]
  have hrne : ¬ (r = 0) := by omega
  have hcne : ¬ (c = 0) := by omega
  have hfne : ¬ (f = 0) := by omega
  simp only [orDefaultZ, hrne, hcne, hfne, if_false, if_neg hrne, if_neg hcne, if_neg hfne]
  have h3 : (3:ℤ) ≤ r + c + f := by omega
  have h15 : r + c + f ≤ 15 := by omega
  have hq3 : (3:ℚ) ≤ ((r + c + f : ℤ) : ℚ) := by exact_mod_cast h3
  have hq15 : ((r + c + f : ℤ) : ℚ) ≤ 15 := by exact_mod_cast h15
  constructor
  · rw [le_div_iff₀ (by norm_num : (0:ℚ) < 3)]
    linarith
  · rw [div_le_iff₀ (by norm_num : (0:ℚ) < 3)]
    linarith

/-- C4 witness: the amended statement applied to the spec §8.1 record, whose
scores are 4, 5 and 3. -/
theorem c4_strategic_value_amended_witness :
    1 ≤ (calculate_roi_with_inputs i_full).strategic_value ∧
      (calculate_roi_with_inputs i_full).strategic_value ≤ 5 :=
  c4_strategic_value_amended i_full ⟨4, rfl, by norm_num, by norm_num⟩
    ⟨5, rfl, by norm_num, by norm_num⟩ ⟨3, rfl, by norm_num, by norm_num⟩

/-- C6 (confirmed): on the spec §3 input domain (numeric fields non-negative
or missing), a zero implementation cost yields annual ROI exactly 0, a
positive monthly benefit with zero implementation cost yields payback exactly
0, and an infinite payback occurs only when the monthly benefit is 0. -/
theorem c6_zero_effort_boundary (i : Inputs) (hv : ValidNumeric i) :
    ((calculate_roi_with_inputs i).implementation_cost = 0 →
      (calculate_roi_with_inputs i).annual_roi_percentage = 0) ∧
    (0 < (calculate_roi_with_inputs i).monthly_benefit ∧
        (calculate_roi_with_inputs i).implementation_cost = 0 →
      (calculate_roi_with_inputs i).payback_period_months = (((0:ℚ)) : WithTop ℚ)) ∧
    ((calculate_roi_with_inputs i).payback_period_months = ⊤ →
      (calculate_roi_with_inputs i).monthly_benefit = 0) := by
  rw [roi_eq, ic_eq, mb_eq, payback_eq]
  refine ⟨?_, ?_, ?_⟩
  · intro h
    rw [annual_roi, if_neg (by rw [h]; norm_num)]
  · rintro ⟨hmb, hic⟩
    rw [payback_months, if_pos hmb, hic]
    norm_num
  · intro h
    by_cases hmb : monthly_benefit i > 0
    · rw [payback_months, if_pos hmb] at h
      exact absurd h (WithTop.coe_ne_top)
    · exact le_antisymm (not_lt.mp hmb) (monthly_benefit_nonneg hv)

/-- C6 witness: on the record with 1200 of annual cost avoidance and no
implementation effort, the annual ROI is 0 and the payback is the numeric 0,
not infinity. -/
theorem c6_zero_effort_boundary_witness :
    (calculate_roi_with_inputs i_ca).annual_roi_percentage = 0 ∧
      (calculate_roi_with_inputs i_ca).payback_period_months = (((0:ℚ)) : WithTop ℚ) := by
  have hv : ValidNumeric i_ca := by norm_num [ValidNumeric, OptNonneg, i_ca]
  have h := c6_zero_effort_boundary i_ca hv
  have hic : (calculate_roi_with_inputs i_ca).implementation_cost = 0 := by
    rw [ic_eq, ic_ca]
  have hmb : 0 < (calculate_roi_with_inputs i_ca).monthly_benefit := by
    rw [mb_eq, mb_ca]; norm_num
  exact ⟨h.1 hic, h.2.1 ⟨hmb, hic⟩⟩

/-- C10 (confirmed): on the spec §3 input domain (numeric fields non-negative
or missing), the monetary outputs are non-negative — the payback period is
either a non-negative rational or +infinity — and the annual ROI percentage
is bounded below by -100. -/
theorem c10_nonneg_outputs (i : Inputs) (hv : ValidNumeric i) :
    0 ≤ (calculate_roi_with_inputs i).monthly_benefit ∧
      0 ≤ (calculate_roi_with_inputs i).annual_benefit ∧
      0 ≤ (calculate_roi_with_inputs i).implementation_cost ∧
      (0 : WithTop ℚ) ≤ (calculate_roi_with_inputs i).payback_period_months ∧
      (-100 : ℚ) ≤ (calculate_roi_with_inputs i).annual_roi_percentage := by
  have hmb := monthly_benefit_nonneg hv
  have hic := implementation_cost_nonneg hv
  refine ⟨hmb, mul_nonneg hmb (by norm_num), hic, ?_, ?_⟩
  · show (0 : WithTop ℚ) ≤ payback_months i
    rw [payback_months]
    by_cases h : monthly_benefit i > 0
    · rw [if_pos h, ← WithTop.coe_zero, WithTop.coe_le_coe]
      exact div_nonneg hic (le_trans (by norm_num) (le_max_right _ _))
    · rw [if_neg h]
      exact le_top
  · show (-100 : ℚ) ≤ annual_roi i
    rw [annual_roi]
    by_cases h : implementation_cost i > 0
    · rw [if_pos h]
      have hdpos : 0 < max (implementation_cost i) (1/100) :=
        lt_of_lt_of_le (by norm_num) (le_max_right _ _)
      have hicd : implementation_cost i ≤ max (implementation_cost i) (1/100) :=
        le_max_left _ _
      rw [div_mul_eq_mul_div, le_div_iff₀ hdpos]
      linarith
    · rw [if_neg h]
      norm_num

/-- C10 witness: the non-negativity bounds instantiated on the spec §8.1
record. -/
theorem c10_nonneg_outputs_witness :
    0 ≤ (calculate_roi_with_inputs i_full).monthly_benefit ∧
      0 ≤ (calculate_roi_with_inputs i_full).annual_benefit ∧
      0 ≤ (calculate_roi_with_inputs i_full).implementation_cost ∧
      (0 : WithTop ℚ) ≤ (calculate_roi_with_inputs i_full).payback_period_months ∧
      (-100 : ℚ) ≤ (calculate_roi_with_inputs i_full).annual_roi_percentage :=
  c10_nonneg_outputs i_full (by norm_num [ValidNumeric, OptNonneg, i_full])

/-- C5 (confirmed): in every reachable store state titles are unique; on a
connected store an upsert for title `t` leaves exactly the freshly built row
(all fields replaced, `updated_at` refreshed to the current clock), a second
identical save still leaves exactly one row for `t`, and the timestamps are
monotonically non-decreasing (any prior row for `t` is no newer than the
first saved row, which is no newer than the second). -/
theorem c5_unique_upsert (s : Store) (hr : Reachable s) (t : String) (i : Inputs)
    (bu : Option String) (hc : s.connected = true) :
    (∀ t', countTitle s.rows t' ≤ 1) ∧
      ((save_roi_inputs s t i bu).2.rows.filter (fun x => decide (x.use_case_title = t))
        = [mkRow t i bu s.clock]) ∧
      ((save_roi_inputs (save_roi_inputs s t i bu).2 t i bu).2.rows.filter
          (fun x => decide (x.use_case_title = t)) = [mkRow t i bu (s.clock + 1)]) ∧
      (∀ r ∈ s.rows, r.use_case_title = t →
        r.updated_at ≤ (mkRow t i bu s.clock).updated_at) ∧
      (mkRow t i bu s.clock).updated_at ≤ (mkRow t i bu (s.clock + 1)).updated_at := by
  have hinv := reachable_inv hr
  refine ⟨hinv.1, ?_, ?_, ?_, ?_⟩
  · simp only [save_roi_inputs, hc, if_true]
    have h1 := filter_upsert s.rows (mkRow t i bu s.clock) (hinv.1 _)
    rw [show (mkRow t i bu s.clock).use_case_title = t from rfl] at h1
    exact h1
  · simp only [save_roi_inputs, hc, if_true]
    have hu : countTitle (upsert s.rows (mkRow t i bu s.clock))
        (mkRow t i bu (s.clock + 1)).use_case_title ≤ 1 :=
      countTitle_upsert_le _ _ _ hinv.1
    have h2 := filter_upsert (upsert s.rows (mkRow t i bu s.clock))
      (mkRow t i bu (s.clock + 1)) hu
    rw [show (mkRow t i bu (s.clock + 1)).use_case_title = t from rfl] at h2
    exact h2
  · intro r hrm _
    have := hinv.2 r hrm
    simp only [mkRow]
    omega
  · simp [mkRow]

/-- C5 witness: the upsert invariant instantiated on a freshly connected
empty store with title "A" and the cost-avoidance record. -/
theorem c5_unique_upsert_witness :
    (∀ t', countTitle store₀.rows t' ≤ 1) ∧
      ((save_roi_inputs store₀ "A" i_ca none).2.rows.filter
          (fun x => decide (x.use_case_title = "A")) = [mkRow "A" i_ca none store₀.clock]) ∧
      ((save_roi_inputs (save_roi_inputs store₀ "A" i_ca none).2 "A" i_ca none).2.rows.filter
          (fun x => decide (x.use_case_title = "A"))
        = [mkRow "A" i_ca none (store₀.clock + 1)]) ∧
      (∀ r ∈ store₀.rows, r.use_case_title = "A" →
        r.updated_at ≤ (mkRow "A" i_ca none store₀.clock).updated_at) ∧
      (mkRow "A" i_ca none store₀.clock).updated_at
        ≤ (mkRow "A" i_ca none (store₀.clock + 1)).updated_at :=
  c5_unique_upsert store₀ (Reachable.init true) "A" i_ca none rfl

/-- C7 (confirmed): a record whose three key fields (`labor_impact_hours`,
`cost_avoidance_annual`, `revenue_impact_annual`) are all missing or zero is
skipped by the aggregation pass: the totals and the per-case summary rows are
exactly those of the pass without the record, regardless of its
`time_to_value_hours`. -/
theorem c7_has_data_filtering (l₁ l₂ : List (String × Inputs)) (t : String) (i : Inputs)
    (h1 : i.labor_impact_hours = none ∨ i.labor_impact_hours = some 0)
    (h2 : i.cost_avoidance_annual = none ∨ i.cost_avoidance_annual = some 0)
    (h3 : i.revenue_impact_annual = none ∨ i.revenue_impact_annual = some 0) :
    roiSummary (l₁ ++ (t, i) :: l₂) = roiSummary (l₁ ++ l₂) := by
  have hhd : has_data i = false := by
    rcases h1 with h1 | h1 <;> rcases h2 with h2 | h2 <;> rcases h3 with h3 | h3 <;>
      simp [has_data, present_nonzero, h1, h2, h3]
  simp [roiSummary, List.foldl_append, List.foldl_cons, summaryStep, hhd]

/-- C7 witness: appending a record with zero/missing key fields but 40 hours
of implementation effort changes neither totals nor summary rows. -/
theorem c7_has_data_filtering_witness :
    roiSummary ([("X", i_full)] ++ ("Y", i_nodata) :: []) = roiSummary ([("X", i_full)] ++ []) :=
  c7_has_data_filtering [("X", i_full)] [] "Y" i_nodata (Or.inr rfl) (Or.inl rfl) (Or.inr rfl)

/-- C8 (confirmed): `delete_roi_inputs` returns false when no row with the
title exists, returns true exactly when a stored row was actually removed
(a matching row existed on a connected store), and after a successful delete
a load of that title returns `none`. -/
theorem c8_delete_correct (s : Store) (t : String) :
    ((∀ r ∈ s.rows, ¬ (r.use_case_title = t)) → (delete_roi_inputs s t).1 = false) ∧
      ((delete_roi_inputs s t).1 = true ↔
        s.connected = true ∧ ∃ r ∈ s.rows, r.use_case_title = t) ∧
      ((delete_roi_inputs s t).1 = true →
        load_roi_inputs (delete_roi_inputs s t).2 t = none) := by
  by_cases hc : s.connected = true
  · refine ⟨?_, ?_, ?_⟩
    · intro habs
      simp only [delete_roi_inputs, hc, if_true]
      rw [decide_eq_false_iff_not, not_lt]
      have hall : s.rows.filter (fun x => !decide (x.use_case_title = t)) = s.rows := by
        apply List.filter_eq_self.mpr
        intro a ha
        simpa using habs a ha
      rw [hall]
    · simp only [delete_roi_inputs, hc, if_true, true_and]
      rw [decide_eq_true_eq, length_filter_lt_iff]
      constructor
      · rintro ⟨x, hx, hpx⟩
        exact ⟨x, hx, by simpa using hpx⟩
      · rintro ⟨x, hx, hxt⟩
        exact ⟨x, hx, by simp [hxt]⟩
    · intro _
      have hnone : ((s.rows.filter (fun x => !decide (x.use_case_title = t))).find?
          (fun x => decide (x.use_case_title = t))) = none := by
        rw [List.find?_eq_none]
        intro x hx
        simpa using (List.mem_filter.mp hx).2
      simp only [delete_roi_inputs, hc, if_true, load_roi_inputs, hnone]
  · refine ⟨?_, ?_, ?_⟩
    · intro _
      simp [delete_roi_inputs, hc]
    · simp [delete_roi_inputs, hc]
    · intro h
      simp [delete_roi_inputs, hc] at h

/-- C8 witness: on a connected store holding only title "A", deleting "B"
returns false, deleting "A" returns true, and loading "A" afterwards returns
`none`. -/
theorem c8_delete_correct_witness :
    (delete_roi_inputs storeA "B").1 = false ∧
      (delete_roi_inputs storeA "A").1 = true ∧
      load_roi_inputs (delete_roi_inputs storeA "A").2 "A" = none := by
  have hmem : mkRow "A" emptyInputs none 0 ∈ storeA.rows := by simp [storeA]
  have htrue : (delete_roi_inputs storeA "A").1 = true :=
    (c8_delete_correct storeA "A").2.1.mpr ⟨rfl, mkRow "A" emptyInputs none 0, hmem, rfl⟩
  refine ⟨(c8_delete_correct storeA "B").1 ?_, htrue,
    (c8_delete_correct storeA "A").2.2 htrue⟩
  intro r hrm
  have hrA : r = mkRow "A" emptyInputs none 0 := by simpa [storeA] using hrm
  rw [hrA]
  simp [mkRow]

/-- C9 (confirmed): on a connected store, saving with an empty fields mapping
succeeds and the stored row is fully populated with the documented defaults —
monetary/hour amounts 0, hourly rates 100, 1–5 scores 3, business unit
"Unknown" — and a subsequent load returns those defaults. -/
theorem c9_defaults_full_row (s : Store) (title : String) (hc : s.connected = true) :
    (save_roi_inputs s title emptyInputs none).1 = true ∧
      ((save_roi_inputs s title emptyInputs none).2.rows.find?
          (fun x => x.use_case_title = title))
        = some { use_case_title := title, business_unit := "Unknown"
                 labor_impact_hours := 0, labor_cost_hourly := 100
                 cost_avoidance_annual := 0, revenue_impact_annual := 0
                 risk_mitigation_score := 3, customer_reach_score := 3
                 time_to_value_hours := 0, implementation_cost_hourly := 100
                 confidence_level := 3, updated_at := s.clock } ∧
      load_roi_inputs (save_roi_inputs s title emptyInputs none).2 title
        = some { labor_impact_hours := 0, labor_cost_hourly := 100
                 cost_avoidance_annual := 0, revenue_impact_annual := 0
                 risk_mitigation_score := 3, customer_reach_score := 3
                 time_to_value_hours := 0, implementation_cost_hourly := 100
                 confidence_level := 3 } := by
  have hfind := find?_upsert s.rows (mkRow title emptyInputs none s.clock)
  rw [show (mkRow title emptyInputs none s.clock).use_case_title = title from rfl] at hfind
  refine ⟨?_, ?_, ?_⟩
  · simp [save_roi_inputs, hc]
  · simp only [save_roi_inputs, hc, if_true]
    rw [hfind]
    simp [mkRow, emptyInputs, strOr]
  · simp only [save_roi_inputs, hc, if_true, load_roi_inputs, hfind]
    simp [mkRow, emptyInputs, strOr]

/-- C9 witness: the default-population behaviour on a freshly connected empty
store under the title "Fresh". -/
theorem c9_defaults_full_row_witness :
    (save_roi_inputs store₀ "Fresh" emptyInputs none).1 = true ∧
      ((save_roi_inputs store₀ "Fresh" emptyInputs none).2.rows.find?
          (fun x => x.use_case_title = "Fresh"))
        = some { use_case_title := "Fresh", business_unit := "Unknown"
                 labor_impact_hours := 0, labor_cost_hourly := 100
                 cost_avoidance_annual := 0, revenue_impact_annual := 0
                 risk_mitigation_score := 3, customer_reach_score := 3
                 time_to_value_hours := 0, implementation_cost_hourly := 100
                 confidence_level := 3, updated_at := store₀.clock } ∧
      load_roi_inputs (save_roi_inputs store₀ "Fresh" emptyInputs none).2 "Fresh"
        = some { labor_impact_hours := 0, labor_cost_hourly := 100
                 cost_avoidance_annual := 0, revenue_impact_annual := 0
                 risk_mitigation_score := 3, customer_reach_score := 3
                 time_to_value_hours := 0, implementation_cost_hourly := 100
                 confidence_level := 3 } :=
  c9_defaults_full_row store₀ "Fresh" rfl

end ROI
